import Mathlib

/-!
Verification of the BRAKScrape repository (src/brak_scrape.py), a scraper that
drives a PrimeFaces/JSF AJAX protocol.  The Python source is shallowly embedded:
pure helper functions become Lean functions over `String`/`List Char`, the
Python `dict` becomes an insertion-ordered association list with overwrite
semantics, and fallible code returns `Except`.  Regular expressions from the
source are hand-compiled to explicit scanners that reproduce the semantics of
the concrete patterns used (leftmost search, greedy character classes,
case-insensitive matching where the source passes IGNORECASE), restricted to
ASCII text.
-/

namespace BrakScrape

/-! ## Python string primitives -/

/-- Whitespace class used by Python str.strip and regex whitespace (ASCII part). -/
def pySpace (c : Char) : Bool :=
  c = ' ' || c = '\t' || c = '\n' || c = '\r' || c = '\x0b' || c = '\x0c'

/-- Strip leading and trailing whitespace from a character list. -/
def stripList (l : List Char) : List Char :=
  ((l.dropWhile pySpace).reverse.dropWhile pySpace).reverse

/-- Python str.strip. -/
def pyStrip (s : String) : String := String.mk (stripList s.toList)

/-- Collapse each maximal whitespace run to a single space.  The boolean flag
records whether we are inside a whitespace run whose space was already emitted. -/
def collapseWsAux : List Char → Bool → List Char
  | [], _ => []
  | c :: rest, prev =>
    if pySpace c then
      if prev then collapseWsAux rest true else ' ' :: collapseWsAux rest true
    else c :: collapseWsAux rest false

/-- Source function named with a leading underscore, here `cleanStr`
(brak_scrape.py line 111): strip, then replace every maximal whitespace run by
a single space. -/
def cleanStr (s : String) : String :=
  String.mk (collapseWsAux (stripList s.toList) false)

/-- Is the first list an exact character prefix of the second? -/
def isPrefixChars : List Char → List Char → Bool
  | [], _ => true
  | _ :: _, [] => false
  | a :: as, b :: bs => a = b && isPrefixChars as bs

/-- Does the first list contain the second as a contiguous substring?
Models the Python `in` operator on strings. -/
def containsSub : List Char → List Char → Bool
  | [], needle => needle.isEmpty
  | h :: t, needle => isPrefixChars needle (h :: t) || containsSub t needle

/-- Python substring membership test on strings. -/
def strContains (hay needle : String) : Bool := containsSub hay.toList needle.toList

/-- Case-insensitive prefix test (ASCII case folding). -/
def isPrefixCI : List Char → List Char → Bool
  | [], _ => true
  | _ :: _, [] => false
  | a :: as, b :: bs => (a.toLower == b.toLower) && isPrefixCI as bs

/-- Case-insensitive substring containment (ASCII case folding). -/
def containsCI : List Char → List Char → Bool
  | [], needle => needle.isEmpty
  | h :: t, needle => isPrefixCI needle (h :: t) || containsCI t needle

/-! ## Python dict as insertion-ordered association list

A Python dict keeps insertion order and assignment overwrites the value in
place.  We model it as an association list with those exact semantics. -/

/-- Membership of a key. -/
def hasKey : List (String × String) → String → Bool
  | [], _ => false
  | p :: t, k => if p.1 = k then true else hasKey t k

/-- Lookup (the no-duplicate-keys invariant makes first-match lookup exact). -/
def dictGet : List (String × String) → String → Option String
  | [], _ => none
  | p :: t, k => if p.1 = k then some p.2 else dictGet t k

/-- Python dict assignment: overwrite in place if the key exists, else append. -/
def dictInsert (d : List (String × String)) (k v : String) : List (String × String) :=
  if hasKey d k then d.map (fun p => if p.1 = k then (p.1, v) else p)
  else d ++ [(k, v)]

theorem dictGet_map_other {k k2 v : String} (h : k2 ≠ k) :
    ∀ d : List (String × String),
      dictGet (d.map (fun p => if p.1 = k then (p.1, v) else p)) k2 = dictGet d k2 := by
  intro d
  induction d with
  | nil => rfl
  | cons p t ih =>
    have hkk2 : k ≠ k2 := fun hc => h hc.symm
    by_cases hpk : p.1 = k
    · have hp2 : p.1 ≠ k2 := fun hc => h (hc ▸ hpk ▸ rfl)
      simp [dictGet, hpk, hp2, ih, hkk2]
    · by_cases hp2 : p.1 = k2 <;> simp [dictGet, hpk, hp2, ih, h, hkk2]

theorem dictInsert_cons {p : String × String} {k : String} (hpk : p.1 ≠ k)
    (t : List (String × String)) (v : String) :
    dictInsert (p :: t) k v = p :: dictInsert t k v := by
  by_cases hany : hasKey t k <;>
    simp [dictInsert, hasKey, hpk, hany]

theorem dictGet_insert (d : List (String × String)) (k v k2 : String) :
    dictGet (dictInsert d k v) k2 = if k2 = k then some v else dictGet d k2 := by
  induction d with
  | nil =>
    by_cases h : k2 = k
    · simp [dictInsert, dictGet, hasKey, h]
    · have h2 : k ≠ k2 := fun hc => h hc.symm
      simp [dictInsert, dictGet, hasKey, h, h2]
  | cons p t ih =>
    by_cases hpk : p.1 = k
    · have hmap : dictInsert (p :: t) k v
          = (p.1, v) :: (t.map (fun q => if q.1 = k then (q.1, v) else q)) := by
        simp [dictInsert, hasKey, hpk]
      rw [hmap]
      by_cases h2 : k2 = k
      · subst h2
        simp [dictGet, hpk]
      · have hp2 : p.1 ≠ k2 := fun hc => h2 (by rw [← hc, hpk])
        have hkk2 : k ≠ k2 := fun hc => h2 hc.symm
        simp [dictGet, hp2, h2, dictGet_map_other h2 t, hpk, hkk2]
    · rw [dictInsert_cons hpk t v]
      by_cases hp2 : p.1 = k2
      · have h2 : k2 ≠ k := fun hc => hpk (by rw [hp2, hc])
        simp [dictGet, hp2, h2]
      · simp [dictGet, hp2, ih]

theorem hasKey_insert (d : List (String × String)) (k v k2 : String) :
    hasKey (dictInsert d k v) k2 = (hasKey d k2 || decide (k2 = k)) := by
  induction d with
  | nil =>
    by_cases h : k2 = k
    · simp [dictInsert, hasKey, h]
    · have h2 : k ≠ k2 := fun hc => h hc.symm
      simp [dictInsert, hasKey, h, h2]
  | cons p t ih =>
    by_cases hpk : p.1 = k
    · have hmap : dictInsert (p :: t) k v
          = (p.1, v) :: (t.map (fun q => if q.1 = k then (q.1, v) else q)) := by
        simp [dictInsert, hasKey, hpk]
      rw [hmap]
      by_cases hp2 : p.1 = k2
      · simp [hasKey, hp2]
      · by_cases h2 : k2 = k
        · exact absurd (by rw [hpk, h2] : p.1 = k2) hp2
        · -- neither the head key nor k equals k2: membership reduces to the tail
          have hmem : ∀ l : List (String × String),
              hasKey (l.map (fun q => if q.1 = k then (q.1, v) else q)) k2 = hasKey l k2 := by
            intro l
            induction l with
            | nil => rfl
            | cons q r ihq =>
              by_cases hq : q.1 = k <;> by_cases hq2 : q.1 = k2 <;>
                simp [hasKey, hq, hq2, ihq, h2]
          simp [hasKey, hp2, h2, hmem t]
    · rw [dictInsert_cons hpk t v]
      by_cases hp2 : p.1 = k2
      · simp [hasKey, hp2]
      · simp [hasKey, hp2, ih]

/-! ## Partial-response decoding

Source `_parse_partial_response` (brak_scrape.py lines 120-133) walks the XML
tree and, for every element whose tag ends in `update`, records its `id`
attribute and text payload in a dict, and sets the ViewState from the payload
of any update whose identifier contains the marker `ViewState` (last such
update wins; only truthy, i.e. nonempty, payloads are considered).  We embed
the XML decoding at the level of the document-order list of update elements:
an `UpdateElem` is one `update` element (identifier plus optional text). -/

structure UpdateElem where
  id : String
  text : Option String
deriving DecidableEq, Repr

/-- The payload of an update element: Python `update.text or ""`. -/
def payloadOf (e : UpdateElem) : String := e.text.getD ""

/-- Does this element set the ViewState?  Mirrors the source condition
`"ViewState" in update_id and payload`. -/
def setsViewstate (e : UpdateElem) : Prop :=
  strContains e.id "ViewState" = true ∧ payloadOf e ≠ ""

instance (e : UpdateElem) : Decidable (setsViewstate e) := by
  unfold setsViewstate; infer_instance

/-- One loop iteration of `_parse_partial_response`. -/
def ppStep (acc : List (String × String) × Option String) (e : UpdateElem) :
    List (String × String) × Option String :=
  (dictInsert acc.1 e.id (payloadOf e),
   if setsViewstate e then some (pyStrip (payloadOf e)) else acc.2)

/-- Source `_parse_partial_response`: returns the UpdateSet (dict from update
identifier to payload) and the optional ViewState. -/
def parsePartialResponse (elems : List UpdateElem) :
    List (String × String) × Option String :=
  elems.foldl ppStep ([], none)

/-- The ViewState component of the fold only depends on the ViewState
accumulator. -/
def vsStep (v : Option String) (e : UpdateElem) : Option String :=
  if setsViewstate e then some (pyStrip (payloadOf e)) else v

theorem ppFold_snd (elems : List UpdateElem) :
    ∀ d v, (elems.foldl ppStep (d, v)).2 = elems.foldl vsStep v := by
  induction elems with
  | nil => intro d v; rfl
  | cons e rest ih =>
    intro d v
    simp only [List.foldl]
    rw [show ppStep (d, v) e
        = (dictInsert d e.id (payloadOf e), vsStep v e) from rfl]
    exact ih _ _

theorem vsFold_no_match (elems : List UpdateElem)
    (h : ∀ e ∈ elems, ¬ setsViewstate e) :
    ∀ v, elems.foldl vsStep v = v := by
  induction elems with
  | nil => intro v; rfl
  | cons e rest ih =>
    intro v
    have he : ¬ setsViewstate e := h e (List.mem_cons_self e rest)
    simp only [List.foldl, vsStep, if_neg he]
    exact ih (fun x hx => h x (List.mem_cons_of_mem e hx)) v

theorem ppFold_fst_hasKey_mono (elems : List UpdateElem) :
    ∀ d v k, hasKey d k = true → hasKey (elems.foldl ppStep (d, v)).1 k = true := by
  induction elems with
  | nil => intro d v k h; exact h
  | cons e rest ih =>
    intro d v k h
    simp only [List.foldl]
    refine ih _ _ k ?_
    show hasKey (dictInsert d e.id (payloadOf e)) k = true
    rw [hasKey_insert]
    simp [h]

theorem ppFold_fst_mem (elems : List UpdateElem) :
    ∀ d v, ∀ e ∈ elems, hasKey (elems.foldl ppStep (d, v)).1 e.id = true := by
  induction elems with
  | nil => intro d v e he; cases he
  | cons e0 rest ih =>
    intro d v e he
    rcases List.mem_cons.mp he with h | h
    · subst h
      simp only [List.foldl]
      refine ppFold_fst_hasKey_mono rest _ _ e.id ?_
      show hasKey (dictInsert d e.id (payloadOf e)) e.id = true
      rw [hasKey_insert]
      simp
    · simp only [List.foldl]
      exact ih _ _ e h

/-! ## The viewstate fallback in `BRAVScraper.ajax`

Source lines 602-603: `updates, new_viewstate = _parse_partial_response(response)`
then `return updates, (new_viewstate or viewstate)`.  The Python `or` falls
back to the submitted viewstate when the decoded one is `None` or the empty
string (both falsy). -/

def ajaxViewstateResult (vsOpt : Option String) (submitted : String) : String :=
  match vsOpt with
  | none => submitted
  | some v => if v = "" then submitted else v

/-- The tail of `BRAVScraper.ajax` after a valid partial response was decoded:
the returned pair of UpdateSet and viewstate. -/
def ajaxExchangeResult (elems : List UpdateElem) (submitted : String) :
    List (String × String) × String :=
  let pr := parsePartialResponse elems
  (pr.1, ajaxViewstateResult pr.2 submitted)

/-! ## Claim theorems on partial-response decoding -/

/-- C4: for every valid partial-response envelope in which some update element
has an identifier embedding the view-state marker and a nonempty payload, and
no later update element does, decoding returns that payload trimmed as the
ViewState, no matter which and how many other update elements surround it; and
every update element of the envelope lands in the UpdateSet keyed by its
target identifier. -/
theorem parse_partial_viewstate_and_updates
    (pre post : List UpdateElem) (e : UpdateElem)
    (h1 : strContains e.id "ViewState" = true)
    (h2 : payloadOf e ≠ "")
    (h3 : ∀ e2 ∈ post, ¬ setsViewstate e2) :
    (parsePartialResponse (pre ++ e :: post)).2 = some (pyStrip (payloadOf e)) ∧
    ∀ e2 ∈ pre ++ e :: post,
      hasKey (parsePartialResponse (pre ++ e :: post)).1 e2.id = true := by
  constructor
  · rw [parsePartialResponse, ppFold_snd, List.foldl_append]
    simp only [List.foldl_cons]
    rw [show vsStep (List.foldl vsStep none pre) e = some (pyStrip (payloadOf e))
        from if_pos ⟨h1, h2⟩]
    exact vsFold_no_match post h3 _
  · exact ppFold_fst_mem (pre ++ e :: post) [] none

/-- Witness for C4 at a concrete three-update envelope. -/
theorem parse_partial_viewstate_and_updates_witness :
    (parsePartialResponse
      [⟨"head", some "x"⟩,
       ⟨"j_id1:jakarta.faces.ViewState:0", some " tok "⟩,
       ⟨"tail", none⟩]).2 = some "tok" := by
  have h := parse_partial_viewstate_and_updates
    [⟨"head", some "x"⟩] [⟨"tail", none⟩]
    ⟨"j_id1:jakarta.faces.ViewState:0", some " tok "⟩
    (by decide) (by decide) (by decide)
  rw [show ([⟨"head", some "x"⟩] ++
        [(⟨"j_id1:jakarta.faces.ViewState:0", some " tok "⟩ : UpdateElem),
         ⟨"tail", none⟩])
      = [⟨"head", some "x"⟩,
         ⟨"j_id1:jakarta.faces.ViewState:0", some " tok "⟩,
         ⟨"tail", none⟩] from rfl] at h
  rw [h.1]
  decide

/-- C9: the Response Classifier is deterministic.  The source function
`_parse_partial_response` builds a fresh parse and fresh locals on every call
and touches no shared mutable state, so its embedding is a pure function of
the envelope; decoding the same envelope twice therefore yields an identical
UpdateSet and an identical ViewState. -/
theorem classifier_deterministic (elems : List UpdateElem) :
    (parsePartialResponse elems).1 = (parsePartialResponse elems).1 ∧
    (parsePartialResponse elems).2 = (parsePartialResponse elems).2 :=
  ⟨rfl, rfl⟩

/-- C8 counterexample: an envelope whose single update element targets the
ViewState identifier with a whitespace-only payload.  The decoder reports a
ViewState update (`some ""` after trimming), yet the exchange returns the
submitted ViewState, not the carried one — refuting the claim that whenever
the response carries a ViewState update the new ViewState is returned. -/
def wsOnlyVsElems : List UpdateElem :=
  [⟨"j_id1:jakarta.faces.ViewState:0", some " "⟩]

/-- C8 counterexample theorem (see `wsOnlyVsElems`). -/
theorem ajax_viewstate_counterexample :
    (parsePartialResponse wsOnlyVsElems).2 = some "" ∧
    (ajaxExchangeResult wsOnlyVsElems "OLDVS").2 = "OLDVS" ∧
    ("OLDVS" : String) ≠ "" := by
  refine ⟨by decide, by decide, by decide⟩

/-- C8 (amended): the AJAX exchange returns the submitted ViewState when the
decoded response carries no ViewState update or the carried ViewState trims to
the empty string, and returns the carried ViewState whenever it is nonempty. -/
theorem ajax_viewstate_fallback (elems : List UpdateElem) (submitted : String) :
    ((parsePartialResponse elems).2 = none →
      (ajaxExchangeResult elems submitted).2 = submitted) ∧
    ((parsePartialResponse elems).2 = some "" →
      (ajaxExchangeResult elems submitted).2 = submitted) ∧
    (∀ v, (parsePartialResponse elems).2 = some v → v ≠ "" →
      (ajaxExchangeResult elems submitted).2 = v) := by
  refine ⟨?_, ?_, ?_⟩
  · intro h
    simp [ajaxExchangeResult, h, ajaxViewstateResult]
  · intro h
    simp [ajaxExchangeResult, h, ajaxViewstateResult]
  · intro v h hne
    simp [ajaxExchangeResult, h, ajaxViewstateResult, hne]

/-- Witness for C8 (amended), exercising the nonempty-ViewState branch. -/
theorem ajax_viewstate_fallback_witness :
    (ajaxExchangeResult [⟨"a:jakarta.faces.ViewState:0", some "newtok"⟩] "OLD").2
      = "newtok" := by
  exact (ajax_viewstate_fallback
      [⟨"a:jakarta.faces.ViewState:0", some "newtok"⟩] "OLD").2.2
    "newtok" (by decide) (by decide)

/-! ## Pagination form fields of `BRAVScraper.fetch_page`

Source lines 644-650 build the extra form fields for a page-change event.
Python integers and floor division are modelled by `Int` and `Int.fdiv`; the
conditional expression `first // rows if rows else 0` guards the division with
the truthiness of `rows`. -/

def pageFormFields (datagridId : String) (first rows : Int) : List (String × String) :=
  [(datagridId ++ "_pagination", "true"),
   (datagridId ++ "_first", toString first),
   (datagridId ++ "_rows", toString rows),
   (datagridId ++ "_page", toString (if rows ≠ 0 then Int.fdiv first rows else 0)),
   (datagridId ++ "_encodeFeature", "true")]

theorem string_append_right_ne (g : String) {s t : String} (h : s ≠ t) :
    g ++ s ≠ g ++ t := by
  intro he
  apply h
  have hd : (g ++ s).data = (g ++ t).data := congrArg String.data he
  rw [String.data_append, String.data_append] at hd
  exact String.ext (List.append_cancel_left hd)

/-- C10: the page-number form field built by `fetch_page` involves no division
by zero: it is `first // rows` (floor division) whenever `rows` is nonzero and
`0` when `rows` is zero. -/
theorem fetch_page_number_field (gid : String) (first rows : Int) :
    (rows ≠ 0 → dictGet (pageFormFields gid first rows) (gid ++ "_page")
        = some (toString (Int.fdiv first rows))) ∧
    (rows = 0 → dictGet (pageFormFields gid first rows) (gid ++ "_page")
        = some (toString (0 : Int))) := by
  have h1 : gid ++ "_pagination" ≠ gid ++ "_page" :=
    string_append_right_ne gid (by decide)
  have h2 : gid ++ "_first" ≠ gid ++ "_page" :=
    string_append_right_ne gid (by decide)
  have h3 : gid ++ "_rows" ≠ gid ++ "_page" :=
    string_append_right_ne gid (by decide)
  constructor
  · intro hr
    simp [pageFormFields, dictGet, h1, h2, h3, hr]
  · intro hr
    simp [pageFormFields, dictGet, h1, h2, h3, hr]

/-- Witness for C10: offset 1600, page size 800 gives page number 2; and a
zero page size gives page number 0. -/
theorem fetch_page_number_field_witness :
    dictGet (pageFormFields "resultForm:dg" 1600 800) ("resultForm:dg" ++ "_page")
      = some "2" ∧
    dictGet (pageFormFields "resultForm:dg" 1600 0) ("resultForm:dg" ++ "_page")
      = some "0" := by
  constructor
  · rw [(fetch_page_number_field "resultForm:dg" 1600 800).1 (by decide)]
    decide
  · rw [(fetch_page_number_field "resultForm:dg" 1600 0).2 (by decide)]
    decide

/-! ## The per-jurisdiction loop of `main`

Source lines 822-889: `main` iterates over the selected bar labels.  The body
of the loop performs one full crawl of a jurisdiction; any exception raised in
the body — including the re-raised `RuntimeError` of an unrecovered fetch
failure (line 848/850) and transport errors — is not caught anywhere in the
`for` loop, so it propagates out of `main` and terminates the whole run.  The
crawl of one jurisdiction is abstracted to an oracle returning either success
or a raised error; `runBars` returns the list of jurisdictions whose crawl was
started, in order, together with the propagated error, if any. -/

def runBars (crawl : String → Except String Unit) : List String → List String × Option String
  | [] => ([], none)
  | b :: rest =>
    match crawl b with
    | .ok _ =>
      let pr := runBars crawl rest
      (b :: pr.1, pr.2)
    | .error e => ([b], some e)

/-- Crawl oracle used by the C2 counterexample: the first jurisdiction raises
a transport error, every other jurisdiction would succeed. -/
def crawlFailsBerlin : String → Except String Unit :=
  fun b => if b = "Berlin" then .error "TransportError after 3 retries" else .ok ()

/-- C2 counterexample: with two jurisdictions where crawling the first raises
a transport error, the error propagates out of the whole run and the second
jurisdiction is never crawled — refuting the claim that the run proceeds to
the next jurisdiction in the list. -/
theorem run_abort_counterexample :
    (runBars crawlFailsBerlin ["Berlin", "Hamburg"]).1 = ["Berlin"] ∧
    "Hamburg" ∉ (runBars crawlFailsBerlin ["Berlin", "Hamburg"]).1 ∧
    (runBars crawlFailsBerlin ["Berlin", "Hamburg"]).2
      = some "TransportError after 3 retries" := by
  refine ⟨rfl, by decide, rfl⟩

/-- C2 (amended): an error raised while crawling a jurisdiction aborts the
entire run — the error propagates out of `main` and no later jurisdiction in
the list is crawled. -/
theorem run_abort_on_error (crawl : String → Except String Unit)
    (b : String) (rest : List String) (e : String)
    (h : crawl b = .error e) :
    runBars crawl (b :: rest) = ([b], some e) := by
  simp [runBars, h]

/-- Witness for C2 (amended) at the concrete failing oracle. -/
theorem run_abort_on_error_witness :
    runBars crawlFailsBerlin ["Berlin", "Hamburg", "Köln"]
      = (["Berlin"], some "TransportError after 3 retries") :=
  run_abort_on_error crawlFailsBerlin "Berlin" ["Hamburg", "Köln"]
    "TransportError after 3 retries" (by simp [crawlFailsBerlin])

/-! ## Session-expiry detection in `BRAVScraper.fetch_page` and recovery in `main`

Source lines 670-684: after the refresh exchange, `fetch_page` reads the
result-form update; when it is missing or empty it raises a view-expired error
if the joined sorted update keys contain the substring `searchForm`, else a
generic protocol error.  Source lines 833-850: `main` catches the view-expired
error, performs exactly one fresh search (re-establishing the ResultContext)
and one retry of the same offset, and re-raises any error of the retry; any
other error of the first attempt is re-raised immediately. -/

/-- Code-point lexicographic comparison, as used by Python `sorted` on str. -/
def charListLe : List Char → List Char → Bool
  | [], _ => true
  | _ :: _, [] => false
  | a :: as, b :: bs => if a = b then charListLe as bs else decide (a < b)

def insertSorted (x : String) : List String → List String
  | [] => [x]
  | y :: t => if charListLe x.toList y.toList then x :: y :: t else y :: insertSorted x t

/-- Python `sorted` on a list of strings (stable insertion sort, ascending). -/
def sortStrings (l : List String) : List String := l.foldr insertSorted []

/-- The two protocol-level failures `fetch_page` can raise after the refresh
exchange: the view-expired error and the generic missing-update error. -/
inductive FetchError where
  | viewExpired : FetchError
  | noUpdate : FetchError
deriving DecidableEq, Repr

/-- The joined sorted update keys, as in the source
`keys = ", ".join(sorted(updates.keys()))`. -/
def joinedKeys (updates : List (String × String)) : String :=
  String.intercalate ", " (sortStrings (updates.map (fun p => p.1)))

/-- The tail of `fetch_page` (lines 670-684): classify the refresh exchange
by its UpdateSet.  `html = updates.get(form_id) or ""`; an empty or missing
result-form update raises view-expired when the joined keys contain
`searchForm`, else the generic error; otherwise the page HTML is returned. -/
def fetchPageClassify (updates : List (String × String)) (formId : String) :
    Except FetchError String :=
  let html := (dictGet updates formId).getD ""
  if html ≠ "" then .ok html
  else if strContains (joinedKeys updates) "searchForm" then .error .viewExpired
  else .error .noUpdate

/-- Outcome of `main` handling one offset: the surfaced result plus how many
fresh searches and how many retries of the same offset were performed. -/
structure OffsetOutcome where
  result : Except FetchError String
  researches : Nat
  retries : Nat
deriving Repr

/-- The `try`/`except` around `scraper.fetch_page` in `main` (lines 833-850):
a first attempt; on a view-expired error exactly one fresh search and one
retry; the retry error (or any non-expired first error) is re-raised. -/
def handleOffsetFetch (attempt1 retryAttempt : Except FetchError String) :
    OffsetOutcome :=
  match attempt1 with
  | .ok h => ⟨.ok h, 0, 0⟩
  | .error e =>
    if e = .viewExpired then
      match retryAttempt with
      | .ok h => ⟨.ok h, 1, 1⟩
      | .error e2 => ⟨.error e2, 1, 1⟩
    else ⟨.error e, 0, 0⟩

/-- One offset of the pagination loop, driven by the UpdateSets that the two
refresh exchanges (first attempt, retry after the fresh search) decode. -/
def offsetOutcomeOf (upd1 upd2 : List (String × String)) (formId : String) :
    OffsetOutcome :=
  handleOffsetFetch (fetchPageClassify upd1 formId) (fetchPageClassify upd2 formId)

/-- C1: when the refresh exchange returns an UpdateSet whose result-form entry
is missing or empty and whose keys contain the search-form identifier (session
expiry), the crawler performs exactly one fresh search and exactly one retry
of the same offset; a successful retry yields the page, and a failing retry
surfaces its error — the offset is never silently skipped. -/
theorem session_expiry_recovery (upd1 upd2 : List (String × String)) (formId : String)
    (h1 : (dictGet upd1 formId).getD "" = "")
    (h2 : strContains (joinedKeys upd1) "searchForm" = true) :
    (offsetOutcomeOf upd1 upd2 formId).researches = 1 ∧
    (offsetOutcomeOf upd1 upd2 formId).retries = 1 ∧
    (∀ h, fetchPageClassify upd2 formId = .ok h →
      (offsetOutcomeOf upd1 upd2 formId).result = .ok h) ∧
    (∀ e2, fetchPageClassify upd2 formId = .error e2 →
      (offsetOutcomeOf upd1 upd2 formId).result = .error e2) := by
  have hc1 : fetchPageClassify upd1 formId = .error .viewExpired := by
    simp [fetchPageClassify, h1, h2]
  refine ⟨?_, ?_, ?_, ?_⟩
  · cases hc2 : fetchPageClassify upd2 formId <;>
      simp [offsetOutcomeOf, handleOffsetFetch, hc1, hc2]
  · cases hc2 : fetchPageClassify upd2 formId <;>
      simp [offsetOutcomeOf, handleOffsetFetch, hc1, hc2]
  · intro h hc2
    simp [offsetOutcomeOf, handleOffsetFetch, hc1, hc2]
  · intro e2 hc2
    simp [offsetOutcomeOf, handleOffsetFetch, hc1, hc2]

/-- Witness for C1: the first refresh exchange hands back only the search
form; the retry also fails (no usable update), and its error is surfaced
after exactly one fresh search and one retry. -/
theorem session_expiry_recovery_witness :
    (offsetOutcomeOf [("searchForm", "form html")] [("other", "")] "resultForm").researches = 1 ∧
    (offsetOutcomeOf [("searchForm", "form html")] [("other", "")] "resultForm").result
      = .error .noUpdate := by
  have h := session_expiry_recovery [("searchForm", "form html")] [("other", "")]
    "resultForm" (by decide) (by decide)
  exact ⟨h.1, h.2.2.2 .noUpdate (by rfl)⟩

/-! ## Jurisdiction select-control parsing

Source `_SelectParser` (lines 158-191) is an HTMLParser subclass; we embed it
as a state machine over the stream of start-tag / end-tag / character-data
events that the HTML parser delivers in document order.  `_extract_select_options`
(lines 193-198) runs it and fails when no options were found. -/

inductive HtmlEvent where
  | startTag (tag : String) (attrs : List (String × String))
  | endTag (tag : String)
  | data (text : String)
deriving DecidableEq, Repr

/-- Python attr_map lookup: the dict comprehension keeps the last duplicate. -/
def attrGet (attrs : List (String × String)) (k : String) : Option String :=
  (attrs.reverse.find? (fun p => decide (p.1 = k))).map (fun p => p.2)

/-- Python `attr_map.get(k, d)`. -/
def attrGetD (attrs : List (String × String)) (k d : String) : String :=
  (attrGet attrs k).getD d

structure SelectState where
  in_select : Bool
  in_option : Bool
  current_value : String
  current_label : List String
  options : List (String × String)
deriving Repr

/-- One event handled by `_SelectParser` (handle_starttag / handle_endtag /
handle_data, lines 168-190). -/
def selectStep (sid : String) (s : SelectState) (e : HtmlEvent) : SelectState :=
  match e with
  | .startTag tag attrs =>
    if tag = "select" ∧ attrGet attrs "id" = some sid then
      { s with in_select := true }
    else if s.in_select = true ∧ tag = "option" then
      { s with in_option := true,
               current_value := pyStrip (attrGetD attrs "value" ""),
               current_label := [] }
    else s
  | .endTag tag =>
    if tag = "select" ∧ s.in_select = true then
      { s with in_select := false }
    else if tag = "option" ∧ s.in_option = true then
      let label := cleanStr (String.join s.current_label)
      { s with
        options := if label ≠ "" ∧ s.current_value ≠ ""
                   then dictInsert s.options label s.current_value else s.options,
        in_option := false, current_value := "", current_label := [] }
    else s
  | .data d =>
    if s.in_option = true then { s with current_label := s.current_label ++ [d] }
    else s

/-- Run `_SelectParser` over an event stream from its initial state. -/
def runSelectParser (sid : String) (events : List HtmlEvent) : SelectState :=
  events.foldl (selectStep sid) ⟨false, false, "", [], []⟩

/-- Source `_extract_select_options`: raise when no options were collected. -/
def extractSelectOptions (sid : String) (events : List HtmlEvent) :
    Except String (List (String × String)) :=
  let st := runSelectParser sid events
  if st.options = [] then .error "Could not find the select control" else .ok st.options

/-- The event stream of one `option` element carrying a value attribute and a
single text node. -/
def optionEvents (p : String × String) : List HtmlEvent :=
  [.startTag "option" [("value", p.1)], .data p.2, .endTag "option"]

/-- The event stream of a whole select control with identifier `sid` whose
options are `opts` (submission value, raw label) in document order. -/
def mkSelectEvents (sid : String) (opts : List (String × String)) : List HtmlEvent :=
  .startTag "select" [("id", sid)] :: ((opts.map optionEvents).flatten ++ [.endTag "select"])

/-- An option survives the parser filter when its whitespace-normalized label
and its stripped value are both nonempty (source line 182). -/
def optionPass (p : String × String) : Bool :=
  decide (cleanStr p.2 ≠ "" ∧ pyStrip p.1 ≠ "")

/-- The dict the parser builds from the option list. -/
def buildOptions (opts : List (String × String)) (d : List (String × String)) :
    List (String × String) :=
  opts.foldl
    (fun d p => if cleanStr p.2 ≠ "" ∧ pyStrip p.1 ≠ ""
                then dictInsert d (cleanStr p.2) (pyStrip p.1) else d) d

theorem empty_append_str (s : String) : "" ++ s = s := by
  cases s with
  | mk d => exact String.ext (by simp [String.data_append])

theorem join_singleton (s : String) : String.join [s] = s := by
  simp [String.join, List.foldl, empty_append_str]

theorem fold_optionEvents (sid : String) (p : String × String)
    (d : List (String × String)) :
    List.foldl (selectStep sid) ⟨true, false, "", [], d⟩ (optionEvents p)
      = ⟨true, false, "", [],
         if cleanStr p.2 ≠ "" ∧ pyStrip p.1 ≠ ""
         then dictInsert d (cleanStr p.2) (pyStrip p.1) else d⟩ := by
  have h1 : selectStep sid ⟨true, false, "", [], d⟩
      (.startTag "option" [("value", p.1)])
      = ⟨true, true, pyStrip p.1, [], d⟩ := by
    simp [selectStep, attrGet, attrGetD, List.find?]
  have h2 : selectStep sid ⟨true, true, pyStrip p.1, [], d⟩ (.data p.2)
      = ⟨true, true, pyStrip p.1, [p.2], d⟩ := by
    simp [selectStep]
  have h3 : selectStep sid ⟨true, true, pyStrip p.1, [p.2], d⟩ (.endTag "option")
      = ⟨true, false, "", [],
         if cleanStr p.2 ≠ "" ∧ pyStrip p.1 ≠ ""
         then dictInsert d (cleanStr p.2) (pyStrip p.1) else d⟩ := by
    simp [selectStep, join_singleton]
  simp [optionEvents, List.foldl, h1, h2, h3]

theorem fold_select_body (sid : String) :
    ∀ (opts : List (String × String)) (d : List (String × String)),
    List.foldl (selectStep sid) ⟨true, false, "", [], d⟩
        ((opts.map optionEvents).flatten ++ [.endTag "select"])
      = ⟨false, false, "", [], buildOptions opts d⟩ := by
  intro opts
  induction opts with
  | nil =>
    intro d
    simp [List.foldl, selectStep, buildOptions]
  | cons p rest ih =>
    intro d
    rw [show ((p :: rest).map optionEvents).flatten
        = optionEvents p ++ (rest.map optionEvents).flatten by simp]
    rw [List.append_assoc, List.foldl_append, fold_optionEvents]
    rw [ih]
    simp [buildOptions]

theorem find?_append_str {α : Type} (f : α → Bool) :
    ∀ l1 l2 : List α, (l1 ++ l2).find? f
      = match l1.find? f with
        | some x => some x
        | none => l2.find? f := by
  intro l1 l2
  induction l1 with
  | nil => rfl
  | cons a t ih =>
    by_cases h : f a = true
    · simp [List.find?, h]
    · simp only [List.cons_append, List.find?]
      rw [Bool.not_eq_true] at h
      rw [h]
      exact ih

theorem buildOptions_get (k : String) :
    ∀ (opts : List (String × String)) (d : List (String × String)),
    dictGet (buildOptions opts d) k
      = match (opts.filter optionPass).reverse.find? (fun p => decide (cleanStr p.2 = k)) with
        | some p => some (pyStrip p.1)
        | none => dictGet d k := by
  intro opts
  induction opts with
  | nil => intro d; rfl
  | cons p rest ih =>
    intro d
    by_cases hp : cleanStr p.2 ≠ "" ∧ pyStrip p.1 ≠ ""
    · have hpass : optionPass p = true := by simp [optionPass, hp]
      rw [show buildOptions (p :: rest) d
          = buildOptions rest (dictInsert d (cleanStr p.2) (pyStrip p.1)) by
            simp [buildOptions, List.foldl, hp]]
      rw [ih]
      rw [show (p :: rest).filter optionPass = p :: rest.filter optionPass by
            simp [List.filter, hpass]]
      rw [show (p :: rest.filter optionPass).reverse
          = (rest.filter optionPass).reverse ++ [p] by simp]
      rw [find?_append_str]
      cases hfind : (rest.filter optionPass).reverse.find?
          (fun q => decide (cleanStr q.2 = k)) with
      | some q => simp
      | none =>
        simp only []
        rw [dictGet_insert]
        by_cases hk : cleanStr p.2 = k
        · subst hk
          simp [List.find?]
        · have hk2 : k ≠ cleanStr p.2 := fun hc => hk hc.symm
          simp [List.find?, hk, hk2]
    · have hpass : optionPass p = false := by simp [optionPass, hp]
      rw [show buildOptions (p :: rest) d = buildOptions rest d by
            simp [buildOptions, List.foldl, hp]]
      rw [ih]
      rw [show (p :: rest).filter optionPass = rest.filter optionPass by
            simp [List.filter, hpass]]

/-- C3 counterexample: two options with the same label `Berlin` and distinct
values.  The extracted mapping carries the value of the second (last)
occurrence, refuting the claim that the first occurrence is kept. -/
def dupLabelEvents : List HtmlEvent :=
  mkSelectEvents "searchForm:ddRAKammer_input" [("1", "Berlin"), ("2", "Berlin")]

/-- C3 counterexample theorem (see `dupLabelEvents`). -/
theorem select_options_counterexample :
    dictGet (runSelectParser "searchForm:ddRAKammer_input" dupLabelEvents).options "Berlin"
      = some "2" ∧
    extractSelectOptions "searchForm:ddRAKammer_input" dupLabelEvents
      = .ok [("Berlin", "2")] ∧
    ("2" : String) ≠ "1" := by
  refine ⟨by decide, by rfl, by decide⟩

/-- C3 (amended): extracting the option set of the named selection control
maps the whitespace-normalized visible label of each option to the stripped
submission value, skipping options whose normalized label or stripped value is
empty; when two options carry the same normalized label, the mapping keeps the
value of the LAST occurrence in document order. -/
theorem select_options_mapping (sid : String) (opts : List (String × String)) (k : String) :
    dictGet (runSelectParser sid (mkSelectEvents sid opts)).options k
      = match (opts.filter optionPass).reverse.find? (fun p => decide (cleanStr p.2 = k)) with
        | some p => some (pyStrip p.1)
        | none => none := by
  have hstart : selectStep sid ⟨false, false, "", [], []⟩
      (.startTag "select" [("id", sid)]) = ⟨true, false, "", [], []⟩ := by
    simp [selectStep, attrGet, List.find?]
  rw [runSelectParser, mkSelectEvents, List.foldl_cons, hstart, fold_select_body]
  rw [show (⟨false, false, "", [], buildOptions opts []⟩ : SelectState).options
      = buildOptions opts [] from rfl]
  rw [buildOptions_get]
  cases (opts.filter optionPass).reverse.find? (fun p => decide (cleanStr p.2 = k)) with
  | some q => rfl
  | none => rfl

/-! ## ViewState extraction from full-page HTML

Source `_extract_viewstate_any` (lines 136-155).  For a non-partial body it
tries three regex patterns in order, all with IGNORECASE, and returns
`match.group(1).strip()` of the first match; if none matches it raises.  Each
pattern is compiled here to an explicit scanner: an unescaped regex dot is a
single-character wildcard, a quote-excluding character class is a
take-up-to-quote run, and the whitespace class is one-or-more whitespace.
`searchLeftmost` reproduces the leftmost-match rule of regex search. -/

/-- Python `_is_jsf_partial` (lines 115-117): the envelope marker within the
first 4000 characters of the left-stripped body. -/
def isJsfPartialBody (s : String) : Bool :=
  containsSub ((s.toList.dropWhile pySpace).take 4000) "<partial-response".toList

/-- Pattern tokens: a literal character (matched case-insensitively) or a
single-character wildcard (an unescaped regex dot). -/
def ciLit (s : String) : List (Option Char) := s.toList.map some

def matchToksCI : List (Option Char) → List Char → Option (List Char)
  | [], rest => some rest
  | _ :: _, [] => none
  | some p :: ps, c :: cs => if p.toLower = c.toLower then matchToksCI ps cs else none
  | none :: ps, _ :: cs => matchToksCI ps cs

/-- Regex one-or-more-whitespace, greedy. -/
def wsPlus : List Char → Option (List Char)
  | [] => none
  | c :: cs => if pySpace c then some (cs.dropWhile pySpace) else none

/-- The suffix `value="([^"]+)"` shared by the three patterns: returns the
nonempty capture between the quotes. -/
def valueCapture (l : List Char) : Option String :=
  match matchToksCI (ciLit "value=\"") l with
  | none => none
  | some rest =>
    match rest.dropWhile (fun c => !(c = '\"')) with
    | [] => none
    | _ :: _ =>
      let cap := rest.takeWhile (fun c => !(c = '\"'))
      if cap.isEmpty then none else some (String.mk cap)

/-- Tokens of the first two patterns up to the closing quote of the name:
the unescaped dots of `jakarta.faces.ViewState` and `javax.faces.ViewState`
are wildcards. -/
def vsPat1Toks : List (Option Char) :=
  ciLit "name=\"jakarta" ++ [none] ++ ciLit "faces" ++ [none] ++ ciLit "ViewState\""

def vsPat2Toks : List (Option Char) :=
  ciLit "name=\"javax" ++ [none] ++ ciLit "faces" ++ [none] ++ ciLit "ViewState\""

/-- Match one of the first two patterns anchored at this position. -/
def vsNamePatAt (toks : List (Option Char)) (l : List Char) : Option String :=
  match matchToksCI toks l with
  | none => none
  | some rest =>
    match wsPlus rest with
    | none => none
    | some rest2 => valueCapture rest2

/-- The third pattern `id="[^"]*ViewState[^"]*"\s+value="([^"]+)"` anchored at
this position: an id attribute whose quoted value contains the marker. -/
def vsIdPatAt (l : List Char) : Option String :=
  match matchToksCI (ciLit "id=\"") l with
  | none => none
  | some rest =>
    let run := rest.takeWhile (fun c => !(c = '\"'))
    match rest.dropWhile (fun c => !(c = '\"')) with
    | [] => none
    | _ :: after =>
      if containsCI run "ViewState".toList then
        match wsPlus after with
        | none => none
        | some rest2 => valueCapture rest2
      else none

/-- Leftmost match of an anchored pattern, as regex search does. -/
def searchLeftmost {α : Type} (pAt : List Char → Option α) : List Char → Option α
  | [] => pAt []
  | c :: cs =>
    match pAt (c :: cs) with
    | some v => some v
    | none => searchLeftmost pAt cs

def searchVsPat1 (html : String) : Option String :=
  searchLeftmost (vsNamePatAt vsPat1Toks) html.toList

def searchVsPat2 (html : String) : Option String :=
  searchLeftmost (vsNamePatAt vsPat2Toks) html.toList

def searchVsPat3 (html : String) : Option String :=
  searchLeftmost vsIdPatAt html.toList

/-- The full-page branch of `_extract_viewstate_any` (lines 146-155): try the
three patterns in order, return the stripped first capture, raise if none
matches. -/
def extractViewstateFull (html : String) : Except String String :=
  match searchVsPat1 html with
  | some v => .ok (pyStrip v)
  | none =>
    match searchVsPat2 html with
    | some v => .ok (pyStrip v)
    | none =>
      match searchVsPat3 html with
      | some v => .ok (pyStrip v)
      | none => .error "Could not find (jakarta|javax).faces.ViewState in HTML"

/-- C5 counterexample: a hidden field whose value has surrounding whitespace.
The first pattern matches with the field value ` abc `, but extraction
returns the stripped value `abc`, not the value unmodified. -/
def wsValueHtml : String :=
  "<input type=\"hidden\" name=\"jakarta.faces.ViewState\" value=\" abc \" />"

/-- C5 counterexample theorem (see `wsValueHtml`). -/
theorem viewstate_strip_counterexample :
    searchVsPat1 wsValueHtml = some " abc " ∧
    extractViewstateFull wsValueHtml = .ok "abc" ∧
    ("abc" : String) ≠ " abc " := by
  refine ⟨by decide, by rfl, by decide⟩

/-- C5 (amended): for a full-page HTML body (not a partial-response
envelope), ViewState extraction tries the known hidden-field patterns in a
fixed order — the jakarta-prefixed field, then the javax-prefixed field, then
any id containing the marker — and returns the value of the first matching
field with surrounding whitespace stripped; if no pattern matches, it raises
a protocol error. -/
theorem viewstate_pattern_order (html : String)
    (_hfull : isJsfPartialBody html = false) :
    (∀ v, searchVsPat1 html = some v →
      extractViewstateFull html = .ok (pyStrip v)) ∧
    (searchVsPat1 html = none → ∀ v, searchVsPat2 html = some v →
      extractViewstateFull html = .ok (pyStrip v)) ∧
    (searchVsPat1 html = none → searchVsPat2 html = none →
      ∀ v, searchVsPat3 html = some v →
      extractViewstateFull html = .ok (pyStrip v)) ∧
    (searchVsPat1 html = none → searchVsPat2 html = none →
      searchVsPat3 html = none →
      extractViewstateFull html
        = .error "Could not find (jakarta|javax).faces.ViewState in HTML") := by
  refine ⟨?_, ?_, ?_, ?_⟩
  · intro v h1
    simp [extractViewstateFull, h1]
  · intro h1 v h2
    simp [extractViewstateFull, h1, h2]
  · intro h1 h2 v h3
    simp [extractViewstateFull, h1, h2, h3]
  · intro h1 h2 h3
    simp [extractViewstateFull, h1, h2, h3]

/-- Witness for C5 (amended): a javax-prefixed field is found by the second
pattern after the first fails. -/
theorem viewstate_pattern_order_witness :
    extractViewstateFull "<input name=\"javax.faces.ViewState\" value=\"xyz\" />"
      = .ok "xyz" := by
  have h := viewstate_pattern_order
    "<input name=\"javax.faces.ViewState\" value=\"xyz\" />" (by decide)
  rw [h.2.1 (by decide) "xyz" (by decide)]
  rfl

/-! ## Total result count extraction

Source `_extract_total_results` (lines 201-211): strip markup (each tag
becomes one space), collapse whitespace, then try three localized count
phrasings in order; the captured digit group has its grouping dots removed
before integer parsing; no match raises. -/

/-- One regex-sub step for tags: at an opening angle bracket followed by at
least one non-closing character and then a closing bracket, the whole tag is
replaced by a single space.  The fuel is the list length, which each step
strictly decreases, so the fuel is never exhausted on the initial call. -/
def stripTagsFuel : Nat → List Char → List Char
  | _, [] => []
  | 0, l => l
  | fuel + 1, c :: rest =>
    if c = '<' ∧ rest.takeWhile (fun d => !(d = '>')) ≠ []
        ∧ rest.dropWhile (fun d => !(d = '>')) ≠ [] then
      ' ' :: stripTagsFuel fuel ((rest.dropWhile (fun d => !(d = '>'))).tail)
    else c :: stripTagsFuel fuel rest

/-- Python re.sub replacing every `<`-run-`>` tag by a space. -/
def stripTags (l : List Char) : List Char := stripTagsFuel l.length l

/-- Integer parse of a digit list, `int` in Python. -/
def digitsToNat (l : List Char) : Nat :=
  l.foldl (fun n c => n * 10 + (c.toNat - 48)) 0

/-- Regex zero-or-more-whitespace, greedy. -/
def wsStar (l : List Char) : List Char := l.dropWhile pySpace

/-- Case-sensitive literal match. -/
def matchLitCS : List Char → List Char → Option (List Char)
  | [], rest => some rest
  | _ :: _, [] => none
  | p :: ps, c :: cs => if p = c then matchLitCS ps cs else none

/-- The capture group of all three patterns: a digit followed by digits or
grouping dots, greedy; dots are removed before parsing (source line 210). -/
def numCapture : List Char → Option Nat
  | [] => none
  | c :: rest =>
    if c.isDigit then
      some (digitsToNat
        ((c :: rest.takeWhile (fun d => d.isDigit || d = '.')).filter
          (fun d => !(d = '.'))))
    else none

/-- Regex one-or-more-digits, greedy. -/
def digits1 : List Char → Option (List Char)
  | [] => none
  | c :: rest => if c.isDigit then some (rest.dropWhile Char.isDigit) else none

/-- Pattern `Number of result entries:` then optional whitespace and the
count capture, anchored here. -/
def countPatEnAt (l : List Char) : Option Nat :=
  (matchLitCS "Number of result entries:".toList l).bind
    (fun r => numCapture (wsStar r))

/-- Pattern `Anzahl der Treffer:` then optional whitespace and the count
capture, anchored here. -/
def countPatDeAt (l : List Char) : Option Nat :=
  (matchLitCS "Anzahl der Treffer:".toList l).bind
    (fun r => numCapture (wsStar r))

/-- Pattern `Entries <n> - <m> of <count>`, anchored here. -/
def countPatRangeAt (l : List Char) : Option Nat :=
  (matchLitCS "Entries".toList l).bind fun r1 =>
  (wsPlus r1).bind fun r2 =>
  (digits1 r2).bind fun r3 =>
  (matchLitCS "-".toList (wsStar r3)).bind fun r4 =>
  (digits1 (wsStar r4)).bind fun r5 =>
  (wsPlus r5).bind fun r6 =>
  (matchLitCS "of".toList r6).bind fun r7 =>
  (wsPlus r7).bind fun r8 =>
  numCapture r8

/-- The cleaned text the patterns run on (source line 202). -/
def countText (html : String) : String :=
  cleanStr (String.mk (stripTags html.toList))

/-- Source `_extract_total_results`. -/
def extractTotalResults (html : String) : Except String Nat :=
  match searchLeftmost countPatEnAt (countText html).toList with
  | some n => .ok n
  | none =>
    match searchLeftmost countPatDeAt (countText html).toList with
    | some n => .ok n
    | none =>
      match searchLeftmost countPatRangeAt (countText html).toList with
      | some n => .ok n
      | none => .error "Could not parse total result count from results HTML"

/-- C6: result-count extraction is locale-and-punctuation invariant — the
German phrasing with a grouping dot and the English range phrasing both yield
1234, grouping separators being stripped before parsing; and a fragment on
which none of the known phrasings matches raises the count-not-found protocol
error. -/
theorem total_results_locale_invariant :
    extractTotalResults "<div>Anzahl der Treffer: 1.234</div>" = .ok 1234 ∧
    extractTotalResults "Entries 1 - 20 of 1234" = .ok 1234 ∧
    ∀ html : String,
      searchLeftmost countPatEnAt (countText html).toList = none →
      searchLeftmost countPatDeAt (countText html).toList = none →
      searchLeftmost countPatRangeAt (countText html).toList = none →
      extractTotalResults html
        = .error "Could not parse total result count from results HTML" := by
  refine ⟨by rfl, by rfl, ?_⟩
  intro html h1 h2 h3
  simp only [String.toList] at h1 h2 h3
  simp [extractTotalResults, String.toList, h1, h2, h3]

/-- Witness for C6: a fragment with no count phrasing raises. -/
theorem total_results_locale_invariant_witness :
    extractTotalResults "<div>no results table here</div>"
      = .error "Could not parse total result count from results HTML" :=
  total_results_locale_invariant.2.2 "<div>no results table here</div>"
    (by rfl) (by rfl) (by rfl)

/-! ## Result-card field extraction

Source `_parse_cards` (lines 301-350).  The HTML card parser delivers, per
card, a header string and the cleaned nonempty detail lines in document order;
the per-card positional field split is embedded here.  The trailing-line test
is the regex of five digits, one-or-more whitespace, then one-or-more
characters; the split regex captures the digits and the remainder (stripped).
The regex dot does not match a newline, and the end anchor also matches just
before one trailing newline, which the embedding reproduces. -/

/-- Regex `(.+)$` anchored at the start of `r`: the greedy capture of
one-or-more non-newline characters ending at the end or just before a single
trailing newline. -/
def dotPlusDollar (r : List Char) : Option (List Char) :=
  match r.getLast? with
  | none => none
  | some lastc =>
    if lastc = '\n' then
      if r.dropLast ≠ [] ∧ r.dropLast.all (fun d => !(d = '\n')) then
        some r.dropLast
      else none
    else
      if r.all (fun d => !(d = '\n')) then some r else none

/-- Backtracking of the greedy whitespace run: try consuming `k+1` whitespace
characters, largest first, and match `(.+)$` on what remains. -/
def zipCityTryK (ws r : List Char) : Nat → Option (List Char)
  | 0 => none
  | k + 1 =>
    match dotPlusDollar (ws.drop (k + 1) ++ r) with
    | some g => some g
    | none => zipCityTryK ws r k

/-- The anchored regex of five digits, one-or-more whitespace, and a
nonempty remainder; returns the zip group and the stripped city group
(source lines 320-324). -/
def zipCitySplit (s : String) : Option (String × String) :=
  let l := s.toList
  let d5 := l.take 5
  if d5.length = 5 ∧ d5.all Char.isDigit then
    let rest := l.drop 5
    let ws := rest.takeWhile pySpace
    let r := rest.dropWhile pySpace
    match zipCityTryK ws r ws.length with
    | some g => some (String.mk d5, pyStrip (String.mk g))
    | none => none
  else none

structure CardRecord where
  bar : String
  name : String
  professional_title : String
  office : String
  street : String
  zip : String
  city : String
  zip_city_raw : String
deriving DecidableEq, Repr

/-- The trailing zip-city line handling: when the last remaining line matches
the postal-code pattern it is split into zip and city and removed. -/
def splitZipCity (rest0 : List String) : (String × String × String) × List String :=
  match rest0.getLast? with
  | some ll =>
    match zipCitySplit ll with
    | some zc => ((zc.1, zc.2, ll), rest0.dropLast)
    | none => (("", "", ""), rest0)
  | none => (("", "", ""), rest0)

/-- The office/street split on the lines remaining after the zip-city line:
a single line is the street; with two or more lines the last is the street
and the prior lines joined with a separator (then stripped) are the office. -/
def officeStreet (rest1 : List String) : String × String :=
  if rest1.length = 1 then ("", rest1.headD "")
  else if 2 ≤ rest1.length then
    (pyStrip (String.intercalate " | " rest1.dropLast), (rest1.getLast?).getD "")
  else ("", "")

/-- The per-card record extraction of `_parse_cards` given the card header
and detail lines. -/
def parseCardRecord (barLabel header : String) (lis0 : List String) : CardRecord :=
  let lis := lis0.filter (fun s => !(s = ""))
  let zs := splitZipCity (lis.drop 1)
  let os := officeStreet zs.2
  { bar := barLabel, name := cleanStr header,
    professional_title := lis.headD "",
    office := os.1, street := os.2,
    zip := zs.1.1, city := zs.1.2.1, zip_city_raw := zs.1.2.2 }

/-- C7: card parsing is positionally deterministic.  On the concrete card of
the claim it yields exactly the stated fields; and in general, for nonempty
detail lines of the shape title, office lines, street, zip-city line — line 0
is the title, the trailing line matching the postal-code-plus-city pattern is
split into zip and city and removed, the last remaining line is the street,
and the prior remaining lines joined with the separator (empty when there are
none) form the office name. -/
theorem card_parsing_positional :
    (parseCardRecord "Berlin" "Dr. Max Mustermann"
        ["Rechtsanwalt", "Kanzlei Muster", "Hauptstr. 1", "10115 Berlin"]
      = { bar := "Berlin", name := "Dr. Max Mustermann",
          professional_title := "Rechtsanwalt", office := "Kanzlei Muster",
          street := "Hauptstr. 1", zip := "10115", city := "Berlin",
          zip_city_raw := "10115 Berlin" }) ∧
    (∀ (barLabel nm title st zc z c : String) (pre : List String),
      title ≠ "" → st ≠ "" → zc ≠ "" → (∀ x ∈ pre, x ≠ "") →
      zipCitySplit zc = some (z, c) →
      (parseCardRecord barLabel nm (title :: (pre ++ [st, zc]))).professional_title
          = title ∧
      (parseCardRecord barLabel nm (title :: (pre ++ [st, zc]))).zip = z ∧
      (parseCardRecord barLabel nm (title :: (pre ++ [st, zc]))).city = c ∧
      (parseCardRecord barLabel nm (title :: (pre ++ [st, zc]))).zip_city_raw = zc ∧
      (parseCardRecord barLabel nm (title :: (pre ++ [st, zc]))).street = st ∧
      (parseCardRecord barLabel nm (title :: (pre ++ [st, zc]))).office
          = pyStrip (String.intercalate " | " pre)) := by
  constructor
  · decide
  · intro barLabel nm title st zc z c pre htitle hst hzc hpre hsplit
    have hfilter : (title :: (pre ++ [st, zc])).filter (fun s => !(s = ""))
        = title :: (pre ++ [st, zc]) := by
      rw [List.filter_eq_self]
      intro a ha
      have hcase : a = title ∨ a ∈ pre ∨ a = st ∨ a = zc := by simpa using ha
      rcases hcase with h | h | h | h
      · simp [h, htitle]
      · have := hpre a h
        simp [this]
      · simp [h, hst]
      · simp [h, hzc]
    have hlast : (pre ++ [st, zc]).getLast? = some zc := by
      rw [show pre ++ [st, zc] = (pre ++ [st]) ++ [zc] by simp]
      exact List.getLast?_concat _
    have hdrop : (pre ++ [st, zc]).dropLast = pre ++ [st] := by
      rw [show pre ++ [st, zc] = (pre ++ [st]) ++ [zc] by simp]
      exact List.dropLast_concat
    have hsz : splitZipCity (pre ++ [st, zc]) = ((z, c, zc), pre ++ [st]) := by
      simp [splitZipCity, hlast, hsplit, hdrop]
    have hos : officeStreet (pre ++ [st])
        = (pyStrip (String.intercalate " | " pre), st) := by
      cases pre with
      | nil =>
        show officeStreet [st] = _
        simp [officeStreet, String.intercalate]
        rfl
      | cons p ps =>
        have hlen : ((p :: ps) ++ [st]).length = ps.length + 2 := by simp
        have hne1 : ¬ ((p :: ps) ++ [st]).length = 1 := by omega
        have hge2 : 2 ≤ ((p :: ps) ++ [st]).length := by omega
        simp only [officeStreet, if_neg hne1, if_pos hge2]
        rw [List.dropLast_concat, List.getLast?_concat]
        rfl
    simp [parseCardRecord, hfilter, hsz, hos]

/-- Witness for C7 applying the positional split to a second concrete card
with a single office line. -/
theorem card_parsing_positional_witness :
    (parseCardRecord "Hamburg" "Erika Musterfrau"
        ["Rechtsanwältin", "Musterkanzlei", "Nebenstr. 2", "20095 Hamburg"]).zip
      = "20095" :=
  (card_parsing_positional.2 "Hamburg" "Erika Musterfrau" "Rechtsanwältin"
    "Nebenstr. 2" "20095 Hamburg" "20095" "Hamburg" ["Musterkanzlei"]
    (by decide) (by decide) (by decide) (by decide) (by rfl)).2.1

end BrakScrape
